import Mathlib

/-!
Verification development for the siret_enrichi repository: four near-duplicate
Python scripts that read SIRET identifiers from a CSV, query the INSEE Sirene
registry per identifier, extract a flat record from the JSON response and write
the aggregated rows to a spreadsheet.

The embedding below translates, from the Python sources:
 - the JSON value model and the Python dictionary/truthiness primitives used by
   the scripts (`dict.get`, `x or y`, `str(x)`, string strip/slice);
 - `extract_fields` of enrich_sirets_insee_progress.py (identical to the one in
   enrich_sirets_insee_v2.py) and `extract_fields` of enrich_sirets_insee_1.py;
 - the identifier loading/normalisation pipeline shared by the variants
   (read column as text, strip non-digits, deduplicate keeping first
   occurrence, filter to length 14);
 - `read_env_file` and the credential resolution chains (CLI value, then
   environment variable, then .env file value);
 - the per-identifier lookup loops: the retry loop of the progress variant
   (HTTP 429 with Retry-After handling, generic exceptions with fixed backoff),
   the single-shot loop of the v2 variant, and the 401-reacquire loop of the
   _1 variant;
 - the checkpoint logic of the progress variant and the top-level control flow
   of `main` in the progress and v2 variants, including process exit statuses.

HTTP responses are modelled as an oracle giving, per identifier and per attempt,
either a network-level error or a status code with headers and parsed JSON
body.  Error-message strings attached to failure rows abstract the textual
`str(e)` of the Python exceptions (their exact text is irrelevant to every
claim); everything else follows the sources line by line.
-/

/-- JSON values as produced by `response.json()` in the scripts (Python objects
of type None/bool/str/int/list/dict restricted to JSON shapes). -/
inductive JVal where
  | null
  | bool (b : Bool)
  | str (s : String)
  | num (n : Int)
  | arr (xs : List JVal)
  | obj (kvs : List (String × JVal))

/-- Rows appended to the result accumulator: Python dictionaries mapping column
names to JSON values, with the literal key order of the source. -/
def Row : Type := List (String × JVal)

/-- Python truthiness (`if x:`, `x or y`) on the modelled JSON values. -/
def truthy : JVal → Bool
  | .null => false
  | .bool b => b
  | .str s => s != ""
  | .num n => n != 0
  | .arr xs => !xs.isEmpty
  | .obj kvs => !kvs.isEmpty

/-- Python `a or b`: `b` when `a` is falsy, otherwise `a`. -/
def pyOr (a b : JVal) : JVal := if truthy a then a else b

/-- Python `d.get(k)` on a dictionary: the stored value, or None when absent. -/
def dictGet (kvs : List (String × JVal)) (k : String) : JVal :=
  match kvs.lookup k with
  | some v => v
  | none => .null

/-- Python `d.get(k, default)` on a dictionary. -/
def dictGetD (kvs : List (String × JVal)) (k : String) (d : JVal) : JVal :=
  match kvs.lookup k with
  | some v => v
  | none => d

/-- Python `str(x)` for the scalar JSON values (the scripts only ever apply it
to strings, numbers or the falsy default; nested list/dict rendering is not
needed by any claim and is abstracted by a placeholder). -/
def pyStr : JVal → String
  | .null => "None"
  | .bool true => "True"
  | .bool false => "False"
  | .str s => s
  | .num n => toString n
  | .arr _ => "<list>"
  | .obj _ => "<dict>"

/-- Views a value as a Python string; `none` models the TypeError/AttributeError
raised when the code applies a string operation to a non-string. -/
def asStr : JVal → Option String
  | .str s => some s
  | _ => none

/-- Views a value as a Python dictionary; `none` models the AttributeError
raised when `.get` is called on a non-dictionary. -/
def asObj : JVal → Option (List (String × JVal))
  | .obj kvs => some kvs
  | _ => none

/-- Shared by all variant extractors: `etab.get("periodesEtablissement") or []`
followed by `periodes[0] if periodes else {}`.  `none` models the exception
raised when the stored value is a truthy non-list, or when its first entry is
not a dictionary. -/
def periodeOf (etab : List (String × JVal)) : Option (List (String × JVal)) :=
  match pyOr (dictGet etab ("periodesEtablissement")) (.arr []) with
  | .arr [] => some []
  | .arr (x :: _) => asObj x
  | _ => none

/-- Sequences `asStr` over a list; `none` models the TypeError raised by
`" ".join` as soon as some element is not a string. -/
def mapStr : List JVal → Option (List String)
  | [] => some []
  | x :: xs =>
    match asStr x, mapStr xs with
    | some s, some rest => some (s :: rest)
    | _, _ => none

/-- Filters the truthy elements and joins them as Python strings; `none` models
the TypeError raised by `" ".join` on a truthy non-string element. -/
def joinTruthyParts (elems : List JVal) : Option String :=
  (mapStr (elems.filter truthy)).map (String.intercalate (" "))

/-- Strips leading and trailing characters satisfying `p`, as Python `strip`. -/
def stripList (p : Char → Bool) (l : List Char) : List Char :=
  ((l.dropWhile p).reverse.dropWhile p).reverse

/-- Python `s.strip()` (whitespace on both ends). -/
def pyStrip (s : String) : String := String.mk (stripList Char.isWhitespace s.data)

/-- Column keys of an Enriched Record of the progress/v2 variants, in the
literal order of their `extract_fields` return dictionary. -/
def enrichedKeys : List String :=
  ["siret", "siren", "denomination", "etat_etablissement", "date_creation",
   "tranche_effectifs", "naf", "libelle_naf", "adresse_ligne_1", "code_postal",
   "commune"]

/-- Builds the return dictionary of `extract_fields` in the progress/v2
variants from the eleven field values. -/
def mkRow (siret siren denomination etat dateCreation tranche naf libNaf
    adresseL1 codePostal commune : JVal) : Row :=
  [("siret", siret), ("siren", siren), ("denomination", denomination),
   ("etat_etablissement", etat), ("date_creation", dateCreation),
   ("tranche_effectifs", tranche), ("naf", naf), ("libelle_naf", libNaf),
   ("adresse_ligne_1", adresseL1), ("code_postal", codePostal),
   ("commune", commune)]

/-- Embeds `extract_fields` of enrich_sirets_insee_progress.py (lines 86-118),
textually identical in enrich_sirets_insee_v2.py (lines 62-95).  The result is
`none` exactly when the Python function raises (an exception which the calling
loops catch and turn into a per-identifier failure). -/
def extractFields (payload : List (String × JVal)) : Option Row :=
  match pyOr (dictGet payload ("etablissement")) (.obj payload) with
  | .obj etab =>
    match dictGetD etab ("uniteLegale") (.obj []) with
    | .obj unite =>
      match pyOr (dictGetD etab ("adresseEtablissement") (.obj [])) (.obj []) with
      | .obj adr =>
        let numero := pyOr (dictGet adr ("numeroVoieEtablissement")) (.str (""))
        let typeVoie := pyOr (dictGet adr ("typeVoieEtablissement")) (.str (""))
        let libVoie := pyOr (dictGet adr ("libelleVoieEtablissement")) (.str (""))
        let comp := pyOr (dictGet adr ("complementAdresseEtablissement")) (.str (""))
        match joinTruthyParts [.str (pyStr numero), typeVoie, libVoie, comp] with
        | some joined =>
          let adresseL1 := if pyStrip joined != "" then JVal.str (pyStrip joined) else JVal.null
          let codePostal := dictGet adr ("codePostalEtablissement")
          let commune := dictGet adr ("libelleCommuneEtablissement")
          match periodeOf etab with
          | some periode =>
            let naf := pyOr (dictGet periode ("activitePrincipaleEtablissement"))
              (dictGet etab ("activitePrincipaleEtablissement"))
            let libNaf := pyOr
              (dictGet periode ("nomenclatureActivitePrincipaleEtablissement")) (.str (""))
            match asStr (pyOr (dictGet etab ("siret")) (.str (""))) with
            | some siretStr =>
              some (mkRow (dictGet etab ("siret")) (.str (siretStr.take 9))
                (pyOr (dictGet unite ("denominationUniteLegale"))
                  (dictGet unite ("nomUniteLegale")))
                (pyOr (dictGet periode ("etatAdministratifEtablissement"))
                  (dictGet etab ("etatAdministratifEtablissement")))
                (dictGet unite ("dateCreationUniteLegale"))
                (pyOr (dictGet unite ("trancheEffectifsUniteLegale"))
                  (dictGet etab ("trancheEffectifsEtablissement")))
                naf libNaf adresseL1 codePostal commune)
            | none => none
          | none => none
        | none => none
      | _ => none
    | _ => none
  | _ => none

/-- Address component keys probed by `extract_fields` of
enrich_sirets_insee_1.py. -/
def adrFields1 : List String :=
  ["numeroVoieEtablissement", "indiceRepetitionEtablissement",
   "typeVoieEtablissement", "libelleVoieEtablissement",
   "complementAdresseEtablissement"]

/-- Embeds `extract_fields` of enrich_sirets_insee_1.py (lines 67-99): fourteen
output fields, address components taken from the first establishment period
with a fallback to the establishment itself, and an explicit `siren` read from
`uniteLegale` before falling back to the first nine characters of the siret. -/
def extractFields1 (payload : List (String × JVal)) : Option Row :=
  match pyOr (dictGet payload ("etablissement")) (.obj payload) with
  | .obj etab =>
    match dictGetD etab ("uniteLegale") (.obj []) with
    | .obj unite =>
      match periodeOf etab with
      | some periode =>
        let adrVal := fun (k : String) => pyOr (dictGet periode k) (dictGet etab k)
        let parts := (adrFields1.filter (fun k => truthy (adrVal k))).map
          (fun k => pyStrip (pyStr (pyOr (adrVal k) (.str ("")))))
        let joined := String.intercalate (" ") parts
        let sirenOf : Option JVal :=
          if truthy (dictGet unite ("siren")) then some (dictGet unite ("siren"))
          else (asStr (pyOr (dictGet etab ("siret")) (.str ("")))).map
            (fun s => JVal.str (s.take 9))
        match sirenOf with
        | some siren =>
          some [("siret", dictGet etab ("siret")),
            ("siren", siren),
            ("denomination", pyOr (dictGet unite ("denominationUniteLegale"))
              (dictGet unite ("nomUniteLegale"))),
            ("enseigne", pyOr (dictGet periode ("enseigne1Etablissement"))
              (dictGet etab ("enseigne1Etablissement"))),
            ("nom_commercial", pyOr (dictGet periode ("nomCommercialEtablissement"))
              (dictGet etab ("nomCommercialEtablissement"))),
            ("statut_diffusion", dictGet unite ("statutDiffusionUniteLegale")),
            ("etat_etablissement", pyOr (dictGet periode ("etatAdministratifEtablissement"))
              (dictGet etab ("etatAdministratifEtablissement"))),
            ("date_creation", dictGet unite ("dateCreationUniteLegale")),
            ("tranche_effectifs", dictGet unite ("trancheEffectifsUniteLegale")),
            ("naf", pyOr (dictGet periode ("activitePrincipaleEtablissement"))
              (dictGet etab ("activitePrincipaleEtablissement"))),
            ("libelle_naf", pyOr
              (dictGet periode ("nomenclatureActivitePrincipaleEtablissement")) (.str (""))),
            ("adresse_ligne_1", if joined != "" then JVal.str joined else JVal.null),
            ("code_postal", pyOr (dictGet periode ("codePostalEtablissement"))
              (dictGet etab ("codePostalEtablissement"))),
            ("commune", pyOr (dictGet periode ("libelleCommuneEtablissement"))
              (dictGet etab ("libelleCommuneEtablissement")))]
        | none => none
      | none => none
    | _ => none
  | _ => none

/-- Strips every non-digit character from an identifier, embedding the pandas
regex replacement of non-digit runs by the empty string
(`str.replace(r"\D+", "", regex=True)` on a text column). -/
def normalizeSiret (s : String) : String := String.mk (s.data.filter Char.isDigit)

/-- Deduplication keeping the first occurrence, in input order, given the set
of already seen values; embeds the order-preserving `pandas.Series.unique`. -/
def uniqueFirstAux (seen : List String) : List String → List String
  | [] => []
  | x :: xs =>
    if x ∈ seen then uniqueFirstAux seen xs
    else x :: uniqueFirstAux (x :: seen) xs

/-- Deduplication keeping the first occurrence, in input order. -/
def uniqueFirst (l : List String) : List String := uniqueFirstAux [] l

/-- Embeds the identifier pipeline of enrich_sirets_insee_progress.py lines
159-161 (identical in the v2 variant): normalise the text column, deduplicate,
keep only values of length exactly 14. -/
def loadIdentifiers (col : List String) : List String :=
  (uniqueFirst (col.map normalizeSiret)).filter (fun s => s.length == 14)

/-- Identifier sequence iterated by enrich_sirets_insee_1.py line 152: the
normalised, deduplicated column without the length filter (malformed values
are handled inside the loop). -/
def ids1 (col : List String) : List String := uniqueFirst (col.map normalizeSiret)

/-- Strips leading and trailing occurrences of a given character, as Python
`strip(c)`. -/
def pyStripChar (c : Char) (s : String) : String :=
  String.mk (stripList (fun d => d == c) s.data)

/-- Position of the key/value separator: Python `"=" in line` and
`line.split("=", 1)` operate on the first occurrence of the equals sign. -/
def eqSign : Char := Char.ofNat 61

/-- Python `line.startswith("#")` for the comment filter of `read_env_file`. -/
def startsWithHash (l : String) : Bool :=
  match l.data with
  | [] => false
  | c :: _ => c == Char.ofNat 35

/-- Embeds the body of `read_env_file`: processes one line of the .env file
into the accumulated dictionary (later assignments shadow earlier ones, which
the association-list lookup realises by prepending). -/
def parseEnvLine (d : List (String × String)) (line : String) : List (String × String) :=
  let l := pyStrip line
  if l == "" || startsWithHash l || !(l.data.contains eqSign) then d
  else
    let k := String.mk (l.data.takeWhile (fun c => c != eqSign))
    let v := String.mk ((l.data.dropWhile (fun c => c != eqSign)).drop 1)
    (pyStrip k, pyStripChar (Char.ofNat 39) (pyStripChar (Char.ofNat 34) (pyStrip v))) :: d

/-- Embeds `read_env_file` (identical in all variants): ignores blank lines,
comment lines and lines without an equals sign; splits on the first equals
sign; strips whitespace and surrounding double then single quotes. -/
def readEnvFile (lines : List String) : List (String × String) :=
  lines.foldl parseEnvLine []

/-- Python truthiness of an optional string (absent CLI flag / unset
environment variable / missing file key are falsy, as is the empty string). -/
def truthyS : Option String → Bool
  | none => false
  | some s => s != ""

/-- Python `a or b` specialised to the optional strings of the credential
chains. -/
def pyOrS (a b : Option String) : Option String := if truthyS a then a else b

/-- Credential resolution chain `cli or os.getenv(...) or env.get(...)` used
for the API key and for each OAuth2 credential. -/
def resolveCred (cli envVar fileVal : Option String) : Option String :=
  pyOrS (pyOrS cli envVar) fileVal

/-- Resolved API key `args.api_key or os.getenv("INSEE_API_KEY") or
env.get("INSEE_API_KEY")` of the progress (line 169) and v2 (line 121)
variants. -/
def resolvedApiKey (cli : Option String) (osEnv : String → Option String)
    (envLines : List String) : Option String :=
  resolveCred cli (osEnv ("INSEE_API_KEY")) ((readEnvFile envLines).lookup ("INSEE_API_KEY"))

/-- Resolved OAuth2 client id of the progress (line 178) and v2 (line 130)
variants. -/
def resolvedClientId (cli : Option String) (osEnv : String → Option String)
    (envLines : List String) : Option String :=
  resolveCred cli (osEnv ("INSEE_CLIENT_ID")) ((readEnvFile envLines).lookup ("INSEE_CLIENT_ID"))

/-- Resolved OAuth2 client secret of the progress (line 179) and v2 (line 131)
variants. -/
def resolvedClientSecret (cli : Option String) (osEnv : String → Option String)
    (envLines : List String) : Option String :=
  resolveCred cli (osEnv ("INSEE_CLIENT_SECRET"))
    ((readEnvFile envLines).lookup ("INSEE_CLIENT_SECRET"))

/-- Result of one HTTP request in the lookup loops: a network-level exception,
or a response with a status code, an optional Retry-After header and a parsed
JSON body. -/
inductive HResp where
  | netErr (msg : String)
  | http (status : Nat) (retryAfter : Option String) (payload : List (String × JVal))

/-- Numeric value of a decimal digit string. -/
def digitsToNat (s : String) : Nat :=
  s.data.foldl (fun acc c => acc * 10 + (c.toNat - 48)) 0

/-- Embeds the Retry-After handling of the progress variant (lines 206-208):
`pause = float(ra) if ra and ra.isdigit() else args.retry_backoff`.  A missing
header, the empty string, or a value with a non-digit character fall back to
the fixed backoff. -/
def pause429 (ra : Option String) (backoff : ℚ) : ℚ :=
  match ra with
  | some s => if s != "" && s.data.all Char.isDigit then (digitsToNat s : ℚ) else backoff
  | none => backoff

/-- Failure Record `{"siret": s, "erreur": str(e)}` appended when a lookup
ultimately fails. -/
def failRow (s msg : String) : Row := [("siret", .str s), ("erreur", .str msg)]

/-- Error-message abstraction for `str(e)` of a `requests.HTTPError` raised by
`raise_for_status` on the given status code. -/
def httpErrMsg (status : Nat) : String := String.append ("HTTPError ") (toString status)

/-- Error-message abstraction for `str(e)` of an exception raised inside
`extract_fields`. -/
def extractErrMsg : String := "extraction error"

/-- Statuses for which `requests.Response.raise_for_status` raises
an `HTTPError` (4xx and 5xx). -/
def raisesForStatus (status : Nat) : Bool := 400 ≤ status && status < 600

/-- Result of the per-identifier retry loop of the progress variant: the row
appended to the accumulator (none when no row is appended at all), the pauses
slept between attempts, and the number of HTTP requests issued. -/
structure FetchRes where
  row : Option Row
  sleeps : List ℚ
  attempts : Nat

/-- Embeds the retry loop of enrich_sirets_insee_progress.py lines 199-220 for
one identifier.  `fuel` is the number of loop iterations still allowed
(`attempt <= max_retries` with `attempt` incremented every iteration), `att`
the index of the next request passed to the response oracle, and `lastErr` the
current value of the `last_err` variable.  On exit of the loop a failure row is
appended only when `last_err` is not None (lines 222-223). -/
def fetchAux (s : String) (oracle : Nat → HResp) (backoff : ℚ) :
    Nat → Option String → Nat → FetchRes
  | _, lastErr, 0 => ⟨lastErr.map (failRow s), [], 0⟩
  | att, lastErr, fuel + 1 =>
    match oracle att with
    | .netErr m =>
      let r := fetchAux s oracle backoff (att + 1) (some m) fuel
      ⟨r.row, backoff :: r.sleeps, r.attempts + 1⟩
    | .http status ra payload =>
      if status == 429 then
        let r := fetchAux s oracle backoff (att + 1) lastErr fuel
        ⟨r.row, pause429 ra backoff :: r.sleeps, r.attempts + 1⟩
      else if raisesForStatus status then
        let r := fetchAux s oracle backoff (att + 1) (some (httpErrMsg status)) fuel
        ⟨r.row, backoff :: r.sleeps, r.attempts + 1⟩
      else
        match extractFields payload with
        | some row => ⟨some row, [], 1⟩
        | none =>
          let r := fetchAux s oracle backoff (att + 1) (some extractErrMsg) fuel
          ⟨r.row, backoff :: r.sleeps, r.attempts + 1⟩

/-- Runs the retry loop for one identifier with `max_retries = mr` (the loop
admits `mr + 1` iterations). -/
def fetchOne (s : String) (oracle : Nat → HResp) (mr : Nat) (backoff : ℚ) : FetchRes :=
  fetchAux s oracle backoff 0 none (mr + 1)

/-- Rows appended by the progress-variant loop over a list of identifiers (one
optional row per identifier, in order). -/
def runRows (sirets : List String) (oracle : String → Nat → HResp) (mr : Nat)
    (backoff : ℚ) : List Row :=
  sirets.filterMap (fun s => (fetchOne s (oracle s) mr backoff).row)

/-- Column names of a row (Python `row.keys()`, in insertion order). -/
def keysOf (r : Row) : List String := r.map Prod.fst

/-- Decidable Python string comparison (lexicographic on code points),
used by `sorted`. -/
def charListLe : List Char → List Char → Bool
  | [], _ => true
  | _ :: _, [] => false
  | x :: xs, y :: ys =>
    if x.toNat < y.toNat then true
    else if y.toNat < x.toNat then false
    else charListLe xs ys

/-- Python `a <= b` on strings. -/
def strLe (a b : String) : Bool := charListLe a.data b.data

/-- Inserts a string into a sorted list. -/
def insertSorted (x : String) : List String → List String
  | [] => [x]
  | y :: ys => if strLe x y then x :: y :: ys else y :: insertSorted x ys

/-- Embeds Python `sorted` on a list of strings (insertion sort; the result is
the unique ascending enumeration once duplicates are removed). -/
def sortStrings : List String → List String
  | [] => []
  | x :: xs => insertSorted x (sortStrings xs)

/-- Concatenated key lists of a sequence of rows. -/
def allKeys : List Row → List String
  | [] => []
  | r :: rs => keysOf r ++ allKeys rs

/-- Embeds `sorted({k for row in rows for k in row.keys()})` of
enrich_sirets_insee_progress.py line 235: the sorted set of keys seen across
the accumulated rows. -/
def fieldnamesOf (rows : List Row) : List String :=
  sortStrings (uniqueFirst (allKeys rows))

/-- Final path component of an output path (the part after the last slash). -/
def pathName (p : String) : String :=
  String.mk ((p.data.reverse.takeWhile (fun c => c != Char.ofNat 47)).reverse)

/-- Directory part of an output path, including the trailing slash. -/
def pathParent (p : String) : String :=
  String.mk ((p.data.reverse.dropWhile (fun c => c != Char.ofNat 47)).reverse)

/-- Stem of a file name: the name without its last extension; a name whose only
dot is its first character (or which has no dot) has no extension, following
`pathlib.PurePath.stem`. -/
def nameStem (n : String) : String :=
  match n.data.reverse.dropWhile (fun c => c != Char.ofNat 46) with
  | [] => n
  | _ :: rest => if rest.isEmpty then n else String.mk rest.reverse

/-- Embeds `Path(args.output).with_suffix(".checkpoint.csv")` of
enrich_sirets_insee_progress.py line 192: the output base name with
`.checkpoint.csv` appended in place of the last extension. -/
def checkpointPath (output : String) : String :=
  String.append (String.append (pathParent output) (nameStem (pathName output)))
    (".checkpoint.csv")

/-- One checkpoint write performed by `write_checkpoint_csv`: the file path,
the CSV header (fieldnames) and the rows rendered below it. -/
structure Checkpoint where
  path : String
  fieldnames : List String
  rows : List Row

/-- Checkpoint trigger of enrich_sirets_insee_progress.py line 233:
`args.checkpoint_rows > 0 and (i % args.checkpoint_rows == 0 or i == total)`. -/
def chkCond (M i total : Nat) : Bool :=
  decide (0 < M) && (i % M == 0 || i == total)

/-- Embeds the body of the enumeration loop of the progress variant (lines
195-241) restricted to its observable effects: per identifier, run the retry
loop, append its optional row to the accumulator, and write a checkpoint of
the full accumulator when the trigger fires.  `i` is the 1-based enumeration
index. -/
def runLoopAux (oracle : String → Nat → HResp) (mr : Nat) (backoff : ℚ) (M total : Nat)
    (path : String) : List String → Nat → List Row → List Row × List Checkpoint
  | [], _, acc => (acc, [])
  | s :: rest, i, acc =>
    let acc2 := acc ++ ((fetchOne s (oracle s) mr backoff).row).toList
    let here := if chkCond M i total then [⟨path, fieldnamesOf acc2, acc2⟩] else []
    let next := runLoopAux oracle mr backoff M total path rest (i + 1) acc2
    (next.1, here ++ next.2)

/-- Enumeration loop of the progress variant over the loaded identifiers of an
input column, started at index 1 with an empty accumulator: the final rows and
the checkpoint trace. -/
def progressRun (input : List String) (oracle : String → Nat → HResp) (mr : Nat)
    (bo : ℚ) (M : Nat) (outputPath : String) : List Row × List Checkpoint :=
  runLoopAux oracle mr bo M (loadIdentifiers input).length (checkpointPath outputPath)
    (loadIdentifiers input) 1 []

/-- Authentication mode selected by the credential resolution of the progress
and v2 variants. -/
inductive AuthMode where
  | apiKeyMode (key : String)
  | oauthMode (clientId clientSecret : String)

/-- Observable outcome of `main` in the progress variant. -/
inductive ProgOutcome where
  | exitNoSirets
  | exitNoCreds
  | authCrash (msg : String)
  | finished (mode : AuthMode) (rows : List Row) (checkpoints : List Checkpoint)

/-- Process exit status of each progress-variant outcome: `sys.exit(0)` when no
valid identifier is found (line 165), `sys.exit(1)` when no credentials resolve
(line 182), status 1 for an uncaught exception raised by the unguarded
`get_token` call (line 183), and 0 on normal completion. -/
def progExitCode : ProgOutcome → Nat
  | .exitNoSirets => 0
  | .exitNoCreds => 1
  | .authCrash _ => 1
  | .finished _ _ _ => 0

/-- Embeds `main` of enrich_sirets_insee_progress.py (lines 128-254) up to its
observable effects.  `input` is the text of the siret column; `osEnv` models
`os.getenv`; `envLines` the lines of the local .env file (empty when the file
is missing); `tokenResp` the response of the OAuth2 token endpoint (consulted
only in OAuth2 mode); `oracle` the per-identifier, per-attempt lookup
responses; `mr`, `backoff`, `M` and `outputPath` the --max-retries,
--retry-backoff, --checkpoint-rows and --output settings. -/
def progressMain (input : List String)
    (cliApiKey cliClientId cliClientSecret : Option String)
    (osEnv : String → Option String) (envLines : List String)
    (tokenResp : HResp) (oracle : String → Nat → HResp)
    (mr : Nat) (backoff : ℚ) (M : Nat) (outputPath : String) : ProgOutcome :=
  let sirets := loadIdentifiers input
  if sirets.isEmpty then .exitNoSirets
  else
    let apiKey := resolvedApiKey cliApiKey osEnv envLines
    if truthyS apiKey then
      let r := progressRun input oracle mr backoff M outputPath
      .finished (.apiKeyMode (apiKey.getD (""))) r.1 r.2
    else
      let clientId := resolvedClientId cliClientId osEnv envLines
      let clientSecret := resolvedClientSecret cliClientSecret osEnv envLines
      if !truthyS clientId || !truthyS clientSecret then .exitNoCreds
      else
        match tokenResp with
        | .netErr m => .authCrash m
        | .http status _ _ =>
          if raisesForStatus status then .authCrash (httpErrMsg status)
          else
            let r := progressRun input oracle mr backoff M outputPath
            .finished (.oauthMode (clientId.getD ("")) (clientSecret.getD (""))) r.1 r.2

/-- Embeds the per-identifier body of the v2 variant loop (lines 144-153): one
GET, `raise_for_status`, `extract_fields`; every exception is caught and
recorded as a failure row. -/
def processIdV2 (s : String) (resp : HResp) : Row :=
  match resp with
  | .netErr m => failRow s m
  | .http status _ payload =>
    if raisesForStatus status then failRow s (httpErrMsg status)
    else
      match extractFields payload with
      | some row => row
      | none => failRow s extractErrMsg

/-- Observable outcome of `main` in the v2 variant. -/
inductive V2Outcome where
  | exitNoCreds
  | authError (status : Nat)
  | crashed (msg : String)
  | finished (mode : AuthMode) (rows : List Row)

/-- Process exit status of each v2-variant outcome: `sys.exit(1)` for missing
credentials (line 134), `sys.exit(2)` for a token request rejected with an
HTTP error status (line 140), status 1 for an uncaught non-HTTPError exception
of the token request, and 0 on normal completion. -/
def v2ExitCode : V2Outcome → Nat
  | .exitNoCreds => 1
  | .authError _ => 2
  | .crashed _ => 1
  | .finished _ _ => 0

/-- Embeds `main` of enrich_sirets_insee_v2.py (lines 97-157) up to its
observable effects.  An empty identifier list only prints a warning (line 116)
and the run proceeds; only `requests.HTTPError` is caught around `get_token`
(lines 135-140), so a network-level token error crashes the process. -/
def v2Main (input : List String)
    (cliApiKey cliClientId cliClientSecret : Option String)
    (osEnv : String → Option String) (envLines : List String)
    (tokenResp : HResp) (oracle : String → HResp) : V2Outcome :=
  let sirets := loadIdentifiers input
  let apiKey := resolvedApiKey cliApiKey osEnv envLines
  if truthyS apiKey then
    .finished (.apiKeyMode (apiKey.getD (""))) (sirets.map (fun s => processIdV2 s (oracle s)))
  else
    let clientId := resolvedClientId cliClientId osEnv envLines
    let clientSecret := resolvedClientSecret cliClientSecret osEnv envLines
    if !truthyS clientId || !truthyS clientSecret then .exitNoCreds
    else
      match tokenResp with
      | .netErr m => .crashed m
      | .http status _ _ =>
        if raisesForStatus status then .authError status
        else
          .finished (.oauthMode (clientId.getD ("")) (clientSecret.getD ("")))
            (sirets.map (fun s => processIdV2 s (oracle s)))

/-- Per-identifier interactions available to the enrich_sirets_insee_1.py loop:
the response to the first GET, the outcome of the token re-acquisition when it
is triggered (`Except.error` models `get_token` raising), and the response to
the retried GET. -/
structure IdOracle1 where
  r1 : HResp
  tokenRes : Except String (Option String)
  r2 : HResp

/-- Embeds the per-identifier body of the enrich_sirets_insee_1.py loop (lines
152-168): malformed identifiers are recorded as explicit invalid rows; a 401
first response triggers exactly one token re-acquisition followed by a retry of
the same request; every exception is caught and recorded as a failure row.
Returns the appended row together with the number of `get_token` calls
performed inside the loop body. -/
def processId1 (s : String) (o : IdOracle1) : Row × Nat :=
  if s.length != 14 then ([("siret", .str s), ("erreur", .str ("SIRET invalide"))], 0)
  else
    match o.r1 with
    | .netErr m => (failRow s m, 0)
    | .http status _ payload =>
      if status == 401 then
        match o.tokenRes with
        | .error m => (failRow s m, 1)
        | .ok _ =>
          match o.r2 with
          | .netErr m => (failRow s m, 1)
          | .http status2 _ payload2 =>
            if raisesForStatus status2 then (failRow s (httpErrMsg status2), 1)
            else
              match extractFields1 payload2 with
              | some row => (row, 1)
              | none => (failRow s extractErrMsg, 1)
      else if raisesForStatus status then (failRow s (httpErrMsg status), 0)
      else
        match extractFields1 payload with
        | some row => (row, 0)
        | none => (failRow s extractErrMsg, 0)

/-- Rows appended by the enrich_sirets_insee_1.py loop over the whole input:
one row per unique normalised identifier, in input order. -/
def run1 (input : List String) (oracles : String → IdOracle1) : List Row :=
  (ids1 input).map (fun s => (processId1 s (oracles s)).1)

/-- Tests whether a value is a Python dictionary. -/
def isObjB : JVal → Bool
  | .obj _ => true
  | _ => false

/-- Tests whether a value is a Python string. -/
def isStrB : JVal → Bool
  | .str _ => true
  | _ => false

/-- The value is a dictionary whenever it is truthy (falsy values are replaced
by an empty-dictionary default before any attribute access). -/
def objIfTruthy (v : JVal) : Bool :=
  if truthy v then isObjB v else true

/-- The value is a string whenever it is truthy. -/
def strIfTruthy (v : JVal) : Bool :=
  if truthy v then isStrB v else true

/-- The entry at a key is a dictionary whenever the key is present (a present
falsy value still reaches an attribute access through the `.get` default that
only covers absence). -/
def objIfPresent (kvs : List (String × JVal)) (k : String) : Bool :=
  match kvs.lookup k with
  | none => true
  | some v => isObjB v

/-- The value is, whenever truthy, a list whose first entry (if any) is a
dictionary. -/
def arrHeadObjIfTruthy (v : JVal) : Bool :=
  if truthy v then
    match v with
    | .arr [] => true
    | .arr (x :: _) => isObjB x
    | _ => false
  else true

/-- Shape conditions under which `extract_fields` of the progress/v2 variants
cannot raise: the establishment, uniteLegale and adresseEtablissement entries
are dictionaries when present, periodesEtablissement is a list whose first
entry is a dictionary when present and truthy, and the siret and the joined
address components are strings when present and truthy. -/
def wellShapedPayload (p : List (String × JVal)) : Bool :=
  match pyOr (dictGet p ("etablissement")) (.obj p) with
  | .obj etab =>
    objIfPresent etab ("uniteLegale")
    && objIfTruthy (dictGet etab ("adresseEtablissement"))
    && arrHeadObjIfTruthy (dictGet etab ("periodesEtablissement"))
    && strIfTruthy (dictGet etab ("siret"))
    && (match pyOr (dictGetD etab ("adresseEtablissement") (.obj [])) (.obj []) with
        | .obj adr =>
          strIfTruthy (dictGet adr ("typeVoieEtablissement"))
          && strIfTruthy (dictGet adr ("libelleVoieEtablissement"))
          && strIfTruthy (dictGet adr ("complementAdresseEtablissement"))
        | _ => false)
  | _ => false

/-- Test payload of the specification: an establishment with siret X whose
legal entity is named ACME. -/
def acmePayload : List (String × JVal) :=
  [("etablissement", .obj [("siret", .str ("X")),
    ("uniteLegale", .obj [("denominationUniteLegale", .str ("ACME"))])])]

theorem mem_uniqueFirstAux (a : String) :
    ∀ (l seen : List String), a ∈ uniqueFirstAux seen l ↔ a ∈ l ∧ a ∉ seen := by
  intro l
  induction l with
  | nil => intro seen; simp [uniqueFirstAux]
  | cons x xs ih =>
    intro seen
    by_cases hx : x ∈ seen
    · simp only [uniqueFirstAux, if_pos hx, ih, List.mem_cons]
      constructor
      · rintro ⟨h1, h2⟩; exact ⟨Or.inr h1, h2⟩
      · rintro ⟨h1 | h1, h2⟩
        · exact absurd (h1 ▸ hx) h2
        · exact ⟨h1, h2⟩
    · simp only [uniqueFirstAux, if_neg hx, List.mem_cons, ih]
      constructor
      · rintro (rfl | ⟨h1, h2⟩)
        · exact ⟨Or.inl rfl, hx⟩
        · exact ⟨Or.inr h1, fun hs => h2 (Or.inr hs)⟩
      · rintro ⟨rfl | h1, h2⟩
        · exact Or.inl rfl
        · by_cases hax : a = x
          · exact Or.inl hax
          · exact Or.inr ⟨h1, by simp [List.mem_cons, hax, h2]⟩

theorem nodup_uniqueFirstAux : ∀ (l seen : List String), (uniqueFirstAux seen l).Nodup := by
  intro l
  induction l with
  | nil => intro seen; simp [uniqueFirstAux]
  | cons x xs ih =>
    intro seen
    by_cases hx : x ∈ seen
    · simpa [uniqueFirstAux, if_pos hx] using ih seen
    · simp only [uniqueFirstAux, if_neg hx, List.nodup_cons]
      refine ⟨fun hmem => ?_, ih (x :: seen)⟩
      exact ((mem_uniqueFirstAux x xs (x :: seen)).mp hmem).2 (List.mem_cons_self x seen)

theorem sublist_uniqueFirstAux :
    ∀ (l seen : List String), List.Sublist (uniqueFirstAux seen l) l := by
  intro l
  induction l with
  | nil => intro seen; simp [uniqueFirstAux]
  | cons x xs ih =>
    intro seen
    by_cases hx : x ∈ seen
    · simpa [uniqueFirstAux, if_pos hx] using (ih seen).cons x
    · simpa [uniqueFirstAux, if_neg hx] using (ih (x :: seen)).cons₂ x

theorem mem_loadIdentifiers (col : List String) (v : String) :
    v ∈ loadIdentifiers col ↔ v ∈ col.map normalizeSiret ∧ v.length = 14 := by
  simp only [loadIdentifiers, uniqueFirst, List.mem_filter, mem_uniqueFirstAux,
    List.not_mem_nil, not_false_iff, and_true, beq_iff_eq]

/-- C3: the identifier loader reads the siret column as text, strips every
non-digit character, deduplicates keeping the first occurrence in input order,
and yields only values of length exactly 14; an identifier appearing twice
verbatim and once with interior spaces normalises and deduplicates to a single
lookup. -/
theorem c3_loader_normalises_dedups_filters :
    (∀ col v, v ∈ loadIdentifiers col → v.length = 14 ∧ v.data.all Char.isDigit = true)
  ∧ (∀ col, (loadIdentifiers col).Nodup)
  ∧ (∀ col, List.Sublist (loadIdentifiers col) (col.map normalizeSiret))
  ∧ (∀ col v, v ∈ loadIdentifiers col ↔ v ∈ col.map normalizeSiret ∧ v.length = 14)
  ∧ normalizeSiret ("1234 5678 901234") = "12345678901234"
  ∧ loadIdentifiers ["12345678901234", "12345678901234", "1234 5678 901234"]
      = ["12345678901234"]
  ∧ loadIdentifiers ["11111111111111", "22222222222222", "11111111111111"]
      = ["11111111111111", "22222222222222"] := by
  refine ⟨?_, ?_, ?_, mem_loadIdentifiers, by decide, by decide, by decide⟩
  · intro col v hv
    obtain ⟨hmem, hlen⟩ := (mem_loadIdentifiers col v).mp hv
    obtain ⟨u, _, rfl⟩ := List.mem_map.mp hmem
    refine ⟨hlen, ?_⟩
    simp only [normalizeSiret, List.all_eq_true]
    intro c hc
    exact (List.mem_filter.mp hc).2
  · intro col
    exact (nodup_uniqueFirstAux _ _).filter _
  · intro col
    exact List.Sublist.trans (List.filter_sublist _) (sublist_uniqueFirstAux _ _)

/-- Witness for C3 at a concrete input: the normalised identifier is kept,
is 14 digits long, and the loader output has no duplicates. -/
theorem c3_loader_witness :
    ("12345678901234" ∈ loadIdentifiers ["12345678901234", "1234 5678 901234"])
  ∧ ("12345678901234" : String).length = 14
  ∧ ("12345678901234" : String).data.all Char.isDigit = true
  ∧ (loadIdentifiers ["12345678901234", "1234 5678 901234"]).Nodup := by
  have h := c3_loader_normalises_dedups_filters
  have hmem : ("12345678901234" : String) ∈
      loadIdentifiers ["12345678901234", "1234 5678 901234"] := by decide
  obtain ⟨h1, h2⟩ := h.1 _ _ hmem
  exact ⟨hmem, h1, h2, h.2.1 _⟩

theorem fetchAux_attempts_le (s : String) (oracle : Nat → HResp) (bo : ℚ) :
    ∀ (fuel att : Nat) (lastErr : Option String),
      (fetchAux s oracle bo att lastErr fuel).attempts ≤ fuel := by
  intro fuel
  induction fuel with
  | zero => intro att lastErr; simp [fetchAux]
  | succ n ih =>
    intro att lastErr
    unfold fetchAux
    cases oracle att with
    | netErr m => exact Nat.succ_le_succ (ih (att + 1) (some m))
    | http st ra p =>
      dsimp only
      split
      · exact Nat.succ_le_succ (ih _ _)
      · split
        · exact Nat.succ_le_succ (ih _ _)
        · cases hext : extractFields p with
          | some row => simp only [hext]; omega
          | none => simp only [hext]; exact Nat.succ_le_succ (ih _ _)

/-- C4: on HTTP 429 the client sleeps the Retry-After value when that header is
a non-negative integer string (so with Retry-After 2 it waits 2 seconds before
the next attempt) and the fixed backoff otherwise, and attempts for one
identifier never exceed the configured maximum retry count plus the initial
request. -/
theorem c4_retry_after_handling (s : String) (oracle : Nat → HResp) (mr : Nat) (bo : ℚ) :
    (fetchOne s oracle mr bo).attempts ≤ mr + 1
  ∧ (∀ ra p, oracle 0 = .http 429 ra p →
      (fetchOne s oracle mr bo).sleeps.head? = some (pause429 ra bo))
  ∧ pause429 (some ("2")) bo = (2 : ℚ)
  ∧ pause429 none bo = bo
  ∧ (∀ t, (t != "" && t.data.all Char.isDigit) = true →
      pause429 (some t) bo = (digitsToNat t : ℚ))
  ∧ (∀ t, (t != "" && t.data.all Char.isDigit) = false → pause429 (some t) bo = bo) := by
  refine ⟨fetchAux_attempts_le s oracle bo (mr + 1) 0 none, ?_, ?_, rfl, ?_, ?_⟩
  · intro ra p h
    simp [fetchOne, fetchAux, h]
  · have hc : (("2" != "") && (("2" : String).data.all Char.isDigit)) = true := by decide
    have hd : digitsToNat ("2") = 2 := rfl
    simp [pause429, hc, hd]
  · intro t ht
    simp [pause429, ht]
  · intro t ht
    simp [pause429, ht]

/-- Witness for C4 at a concrete input: with a first response of HTTP 429 and
Retry-After 2, the first pause slept is exactly 2 seconds, and three requests
are issued for max retries 2. -/
theorem c4_retry_after_witness :
    (fetchOne ("12345678901234") (fun _ => .http 429 (some ("2")) []) 2 1).sleeps.head?
      = some 2
  ∧ (fetchOne ("12345678901234") (fun _ => .http 429 (some ("2")) []) 2 1).attempts ≤ 3 := by
  have h := c4_retry_after_handling ("12345678901234")
    (fun _ => .http 429 (some ("2")) []) 2 1
  have h1 := h.2.1 (some ("2")) [] rfl
  have h2 := h.2.2.1
  rw [h1, h2]
  exact ⟨rfl, h.1⟩

/-- C1: evaluation of the progress variant at the failing input: a single valid
identifier whose every attempt returns HTTP 429 until retries are exhausted is
silently lost — the loop issues three requests (max retries 2), appends no row
at all, and both the final rows and the lone checkpoint are empty, where the
claim requires exactly one row for this identifier. -/
theorem c1_429_exhaustion_loses_row :
    (fetchOne ("12345678901234") (fun _ => .http 429 none []) 2 1).row = none
  ∧ (fetchOne ("12345678901234") (fun _ => .http 429 none []) 2 1).attempts = 3
  ∧ runRows ["12345678901234"] (fun _ _ => .http 429 none []) 2 1 = []
  ∧ progressMain ["12345678901234"] (some ("k")) none none (fun _ => none) []
      (.http 200 none []) (fun _ _ => .http 429 none []) 2 1 50 ("out.xlsx")
      = .finished (.apiKeyMode ("k")) [] [⟨"out.checkpoint.csv", [], []⟩] :=
  ⟨rfl, rfl, rfl, rfl⟩

/-- C2: in the OAuth2 loop of the _1 variant, an HTTP 401 lookup response
triggers exactly one token re-acquisition followed by a retry of the same
request; when the retried request returns 401 again, no further acquisition is
attempted, the identifier yields a Failure Record, and the run continues (every
identifier still yields exactly one row). -/
theorem c2_single_token_reacquisition (s : String) (o : IdOracle1)
    (ra1 : Option String) (p1 : List (String × JVal)) (ra2 : Option String)
    (p2 : List (String × JVal)) (tok : Option String) (hlen : s.length = 14)
    (h1 : o.r1 = .http 401 ra1 p1) (ht : o.tokenRes = .ok tok)
    (h2 : o.r2 = .http 401 ra2 p2) :
    (processId1 s o).2 = 1
  ∧ (processId1 s o).1 = failRow s (httpErrMsg 401)
  ∧ keysOf (processId1 s o).1 = ["siret", "erreur"]
  ∧ (∀ (input : List String) (oracles : String → IdOracle1),
      (run1 input oracles).length = (ids1 input).length) := by
  have hne : (s.length != 14) = false := by simp [hlen]
  have hr : raisesForStatus 401 = true := by decide
  refine ⟨?_, ?_, ?_, ?_⟩
  · simp [processId1, hne, h1, ht, h2, hr]
  · simp [processId1, hne, h1, ht, h2, hr]
  · simp [processId1, hne, h1, ht, h2, hr, keysOf, failRow]
  · intro input oracles
    simp [run1]

/-- Witness for C2 at a concrete input: a valid identifier receiving two
consecutive 401 responses causes exactly one token re-acquisition and a
two-key Failure Record. -/
theorem c2_single_token_reacquisition_witness :
    ("12345678901234" : String).length = 14
  ∧ (processId1 ("12345678901234")
      ⟨.http 401 none [], .ok none, .http 401 none []⟩).2 = 1
  ∧ keysOf (processId1 ("12345678901234")
      ⟨.http 401 none [], .ok none, .http 401 none []⟩).1 = ["siret", "erreur"] := by
  have h := c2_single_token_reacquisition ("12345678901234")
    ⟨.http 401 none [], .ok none, .http 401 none []⟩ none [] none [] none
    (by decide) rfl rfl rfl
  exact ⟨by decide, h.1, h.2.2.1⟩

theorem extractFields_keys (p : List (String × JVal)) (r : Row)
    (h : extractFields p = some r) : keysOf r = enrichedKeys := by
  unfold extractFields at h
  repeat'
    first
      | (split at h)
      | (dsimp only [] at h)
  all_goals
    first
      | exact Option.noConfusion h
      | (cases h; rfl)

theorem fetchAux_row_shape (s : String) (oracle : Nat → HResp) (bo : ℚ) :
    ∀ (fuel att : Nat) (lastErr : Option String) (r : Row),
      (fetchAux s oracle bo att lastErr fuel).row = some r →
      (∃ p, extractFields p = some r) ∨ ∃ m, r = failRow s m := by
  intro fuel
  induction fuel with
  | zero =>
    intro att lastErr r h
    cases lastErr with
    | none => simp [fetchAux] at h
    | some m =>
      right
      refine ⟨m, ?_⟩
      simpa [fetchAux] using h.symm
  | succ n ih =>
    intro att lastErr r h
    unfold fetchAux at h
    cases horacle : oracle att with
    | netErr m =>
      rw [horacle] at h
      exact ih _ _ _ h
    | http st ra p =>
      rw [horacle] at h
      dsimp only at h
      split at h
      · exact ih _ _ _ h
      · split at h
        · exact ih _ _ _ h
        · cases hext : extractFields p with
          | some row =>
            rw [hext] at h
            left
            exact ⟨p, by rw [hext]; exact congrArg some (by simpa using h)⟩
          | none =>
            rw [hext] at h
            exact ih _ _ _ h

theorem runRows_mem_shape (sirets : List String) (oracle : String → Nat → HResp)
    (mr : Nat) (bo : ℚ) (r : Row) (h : r ∈ runRows sirets oracle mr bo) :
    (∃ p, extractFields p = some r) ∨ ∃ s m, r = failRow s m := by
  obtain ⟨s, _, hs⟩ := List.mem_filterMap.mp h
  rcases fetchAux_row_shape s (oracle s) bo (mr + 1) 0 none r hs with h1 | ⟨m, h2⟩
  · exact Or.inl h1
  · exact Or.inr ⟨s, m, h2⟩

/-- C10: every record appended by the progress-variant loop has exactly one of
two key sets: a successful extraction always has exactly the eleven enriched
keys and never an erreur key, and a failure record has exactly the keys siret
and erreur, so the presence of the erreur key classifies every output row. -/
theorem c10_row_key_shapes :
    (∀ (sirets : List String) (oracle : String → Nat → HResp) (mr : Nat) (bo : ℚ)
      (r : Row), r ∈ runRows sirets oracle mr bo →
        (keysOf r = enrichedKeys ∧ ("erreur" ∉ keysOf r))
        ∨ keysOf r = ["siret", "erreur"])
  ∧ (∀ (sirets : List String) (oracle : String → Nat → HResp) (mr : Nat) (bo : ℚ)
      (r : Row), r ∈ runRows sirets oracle mr bo →
        (("erreur" ∈ keysOf r) ↔ keysOf r = ["siret", "erreur"])) := by
  have main : ∀ (sirets : List String) (oracle : String → Nat → HResp) (mr : Nat) (bo : ℚ)
      (r : Row), r ∈ runRows sirets oracle mr bo →
        (keysOf r = enrichedKeys ∧ ("erreur" ∉ keysOf r))
        ∨ keysOf r = ["siret", "erreur"] := by
    intro sirets oracle mr bo r h
    rcases runRows_mem_shape sirets oracle mr bo r h with ⟨p, hp⟩ | ⟨s, m, hm⟩
    · left
      have hk := extractFields_keys p r hp
      refine ⟨hk, ?_⟩
      rw [hk]
      decide
    · right
      rw [hm]
      rfl
  refine ⟨main, ?_⟩
  intro sirets oracle mr bo r h
  rcases main sirets oracle mr bo r h with ⟨hk, hne⟩ | hk
  · constructor
    · intro he
      exact absurd he hne
    · intro he
      rw [he]
      decide
  · rw [hk]
    constructor
    · intro _
      rfl
    · intro _
      decide

/-- Witness for C10 at a concrete input: a failure row produced by a network
error belongs to the run output and carries exactly the two failure keys. -/
theorem c10_row_key_shapes_witness :
    (failRow ("12345678901234") ("boom")
      ∈ runRows ["12345678901234"] (fun _ _ => .netErr ("boom")) 0 1)
  ∧ ((keysOf (failRow ("12345678901234") ("boom")) = enrichedKeys
      ∧ ("erreur" ∉ keysOf (failRow ("12345678901234") ("boom"))))
     ∨ keysOf (failRow ("12345678901234") ("boom")) = ["siret", "erreur"]) := by
  have heq : runRows ["12345678901234"] (fun _ _ => .netErr ("boom")) 0 1
      = [failRow ("12345678901234") ("boom")] := rfl
  have hmem : failRow ("12345678901234") ("boom")
      ∈ runRows ["12345678901234"] (fun _ _ => .netErr ("boom")) 0 1 := by
    rw [heq]
    exact List.mem_singleton_self _
  exact ⟨hmem, c10_row_key_shapes.1 _ _ _ _ _ hmem⟩

theorem runRows_nil (oracle : String → Nat → HResp) (mr : Nat) (bo : ℚ) :
    runRows [] oracle mr bo = [] := rfl

theorem runRows_cons (s : String) (ss : List String) (oracle : String → Nat → HResp)
    (mr : Nat) (bo : ℚ) :
    runRows (s :: ss) oracle mr bo
      = ((fetchOne s (oracle s) mr bo).row).toList ++ runRows ss oracle mr bo := by
  cases h : (fetchOne s (oracle s) mr bo).row <;>
    simp [runRows, List.filterMap_cons, h, Option.toList]

theorem mem_insertSorted (x a : String) :
    ∀ (l : List String), a ∈ insertSorted x l ↔ a = x ∨ a ∈ l := by
  intro l
  induction l with
  | nil => simp [insertSorted]
  | cons y ys ih =>
    simp only [insertSorted]
    split
    · simp [List.mem_cons]
    · simp only [List.mem_cons, ih]
      tauto

theorem mem_sortStrings (a : String) : ∀ (l : List String), a ∈ sortStrings l ↔ a ∈ l := by
  intro l
  induction l with
  | nil => simp [sortStrings]
  | cons x xs ih =>
    simp [sortStrings, mem_insertSorted, ih, List.mem_cons]

theorem mem_allKeys (k : String) : ∀ (rows : List Row),
    k ∈ allKeys rows ↔ ∃ r ∈ rows, k ∈ keysOf r := by
  intro rows
  induction rows with
  | nil => simp [allKeys]
  | cons r rs ih =>
    simp [allKeys, List.mem_append, ih, List.mem_cons]

theorem mem_fieldnamesOf (k : String) (rows : List Row) :
    k ∈ fieldnamesOf rows ↔ ∃ r ∈ rows, k ∈ keysOf r := by
  simp only [fieldnamesOf, mem_sortStrings, uniqueFirst, mem_uniqueFirstAux,
    List.not_mem_nil, not_false_iff, and_true, mem_allKeys]

theorem runLoopAux_fst (oracle : String → Nat → HResp) (mr : Nat) (bo : ℚ)
    (M total : Nat) (path : String) :
    ∀ (ss : List String) (i : Nat) (acc : List Row),
      (runLoopAux oracle mr bo M total path ss i acc).1 = acc ++ runRows ss oracle mr bo := by
  intro ss
  induction ss with
  | nil => intro i acc; simp [runLoopAux, runRows_nil]
  | cons s rest ih =>
    intro i acc
    simp only [runLoopAux]
    rw [ih (i + 1) (acc ++ ((fetchOne s (oracle s) mr bo).row).toList)]
    rw [runRows_cons, List.append_assoc]

theorem filterMap_range_succ {b : Type} (n : Nat) (f : Nat → Option b) :
    (List.range (n + 1)).filterMap f
      = (f 0).toList ++ (List.range n).filterMap (fun j => f (j + 1)) := by
  rw [List.range_succ_eq_map, List.filterMap_cons]
  have hfun : (f ∘ Nat.succ) = fun j => f (j + 1) := by
    funext j
    simp [Function.comp, Nat.succ_eq_add_one]
  cases h : f 0 <;> simp [h, List.filterMap_map, Option.toList, hfun]

theorem runLoopAux_snd (oracle : String → Nat → HResp) (mr : Nat) (bo : ℚ)
    (M total : Nat) (path : String) :
    ∀ (ss : List String) (i : Nat) (acc : List Row),
      (runLoopAux oracle mr bo M total path ss i acc).2
        = (List.range ss.length).filterMap (fun j =>
            if chkCond M (i + j) total
            then some ⟨path, fieldnamesOf (acc ++ runRows (ss.take (j + 1)) oracle mr bo),
                       acc ++ runRows (ss.take (j + 1)) oracle mr bo⟩
            else none) := by
  intro ss
  induction ss with
  | nil => intro i acc; simp [runLoopAux]
  | cons s rest ih =>
    intro i acc
    simp only [runLoopAux]
    rw [ih (i + 1) (acc ++ ((fetchOne s (oracle s) mr bo).row).toList)]
    rw [List.length_cons, filterMap_range_succ]
    simp only [Nat.add_zero, Nat.zero_add, List.take_succ_cons, List.take_zero,
      runRows_cons, runRows_nil, List.append_nil, List.append_assoc]
    congr 1
    · cases hc : chkCond M i total <;> simp [hc]
    · refine congrArg (fun g => List.filterMap g (List.range rest.length)) ?_
      funext j
      have hsh : i + (j + 1) = i + 1 + j := by omega
      rw [hsh]

theorem progressRun_fst (input : List String) (oracle : String → Nat → HResp)
    (mr : Nat) (bo : ℚ) (M : Nat) (outputPath : String) :
    (progressRun input oracle mr bo M outputPath).1
      = runRows (loadIdentifiers input) oracle mr bo := by
  rw [progressRun, runLoopAux_fst, List.nil_append]

theorem progressRun_snd (input : List String) (oracle : String → Nat → HResp)
    (mr : Nat) (bo : ℚ) (M : Nat) (outputPath : String) (hM : 0 < M) :
    (progressRun input oracle mr bo M outputPath).2
      = (List.range (loadIdentifiers input).length).filterMap (fun j =>
          if (j + 1) % M = 0 ∨ (j + 1) = (loadIdentifiers input).length
          then some ⟨checkpointPath outputPath,
                fieldnamesOf (runRows ((loadIdentifiers input).take (j + 1)) oracle mr bo),
                runRows ((loadIdentifiers input).take (j + 1)) oracle mr bo⟩
          else none) := by
  rw [progressRun, runLoopAux_snd]
  refine congrArg
    (fun g => List.filterMap g (List.range (loadIdentifiers input).length)) ?_
  funext j
  have h1 : (1 : Nat) + j = j + 1 := Nat.add_comm 1 j
  rw [h1, List.nil_append]
  have h2 : (chkCond M (j + 1) (loadIdentifiers input).length = true)
      ↔ ((j + 1) % M = 0 ∨ (j + 1) = (loadIdentifiers input).length) := by
    simp [chkCond, hM]
  exact if_congr h2 rfl rfl

/-- C9: with a positive checkpoint interval M, the progress-variant loop writes
a checkpoint exactly after every identifier whose 1-based index is a multiple
of M and after the final identifier; each write goes to
`<output base name>.checkpoint.csv` and contains the full accumulated result
sequence so far, with a column set equal to the union of keys seen across the
accumulated rows. -/
theorem c9_checkpoint_schedule (input : List String) (oracle : String → Nat → HResp)
    (mr : Nat) (bo : ℚ) (M : Nat) (outputPath : String) (hM : 0 < M) :
    (progressRun input oracle mr bo M outputPath).2
      = (List.range (loadIdentifiers input).length).filterMap (fun j =>
          if (j + 1) % M = 0 ∨ (j + 1) = (loadIdentifiers input).length
          then some ⟨checkpointPath outputPath,
                fieldnamesOf (runRows ((loadIdentifiers input).take (j + 1)) oracle mr bo),
                runRows ((loadIdentifiers input).take (j + 1)) oracle mr bo⟩
          else none)
  ∧ (∀ c, c ∈ (progressRun input oracle mr bo M outputPath).2 →
      c.path = checkpointPath outputPath
      ∧ (∀ k, k ∈ c.fieldnames ↔ ∃ r ∈ c.rows, k ∈ keysOf r))
  ∧ (0 < (loadIdentifiers input).length →
      ∃ c ∈ (progressRun input oracle mr bo M outputPath).2,
        c.rows = (progressRun input oracle mr bo M outputPath).1)
  ∧ checkpointPath ("./enrichi_insee.xlsx") = "./enrichi_insee.checkpoint.csv" := by
  have hmain := progressRun_snd input oracle mr bo M outputPath hM
  refine ⟨hmain, ?_, ?_, by decide⟩
  · intro c hc
    rw [hmain] at hc
    obtain ⟨j, _, hj⟩ := List.mem_filterMap.mp hc
    by_cases hcond : ((j + 1) % M = 0 ∨ (j + 1) = (loadIdentifiers input).length)
    · rw [if_pos hcond] at hj
      cases hj
      exact ⟨rfl, fun k => mem_fieldnamesOf k _⟩
    · rw [if_neg hcond] at hj
      cases hj
  · intro hpos
    refine ⟨⟨checkpointPath outputPath,
        fieldnamesOf (runRows (loadIdentifiers input) oracle mr bo),
        runRows (loadIdentifiers input) oracle mr bo⟩, ?_, ?_⟩
    · rw [hmain]
      apply List.mem_filterMap.mpr
      refine ⟨(loadIdentifiers input).length - 1, ?_, ?_⟩
      · rw [List.mem_range]
        omega
      · have ht : (loadIdentifiers input).length - 1 + 1 = (loadIdentifiers input).length := by
          omega
        rw [ht, if_pos (Or.inr rfl), List.take_length]
    · rw [progressRun_fst]

/-- Witness for C9 at a concrete input: with checkpoint interval 1 and a single
identifier failing on a network error, the run writes exactly one checkpoint
holding the failure row, with the sorted union of its keys as columns. -/
theorem c9_checkpoint_schedule_witness :
    0 < 1
  ∧ (progressRun ["12345678901234"] (fun _ _ => .netErr ("boom")) 0 1 1 ("o.xlsx")).2
      = [⟨"o.checkpoint.csv", ["erreur", "siret"],
          [failRow ("12345678901234") ("boom")]⟩] := by
  have h := c9_checkpoint_schedule ["12345678901234"] (fun _ _ => .netErr ("boom"))
    0 1 1 ("o.xlsx") (by decide)
  refine ⟨by decide, ?_⟩
  rw [h.1]
  rfl

theorem progressMain_eq_apiKey (input : List String) (cliK cliI cliS : Option String)
    (osEnv : String → Option String) (envLines : List String) (tokenResp : HResp)
    (oracle : String → Nat → HResp) (mr : Nat) (bo : ℚ) (M : Nat) (out : String)
    (hne : (loadIdentifiers input).isEmpty = false)
    (hkey : truthyS (resolvedApiKey cliK osEnv envLines) = true) :
    progressMain input cliK cliI cliS osEnv envLines tokenResp oracle mr bo M out
      = .finished (.apiKeyMode ((resolvedApiKey cliK osEnv envLines).getD ("")))
          (progressRun input oracle mr bo M out).1
          (progressRun input oracle mr bo M out).2 := by
  simp only [progressMain, hne, hkey, Bool.false_eq_true, if_false, if_true]

theorem progressMain_eq_noCreds (input : List String) (cliK cliI cliS : Option String)
    (osEnv : String → Option String) (envLines : List String) (tokenResp : HResp)
    (oracle : String → Nat → HResp) (mr : Nat) (bo : ℚ) (M : Nat) (out : String)
    (hne : (loadIdentifiers input).isEmpty = false)
    (hkey : truthyS (resolvedApiKey cliK osEnv envLines) = false)
    (hcc : (!truthyS (resolvedClientId cliI osEnv envLines)
        || !truthyS (resolvedClientSecret cliS osEnv envLines)) = true) :
    progressMain input cliK cliI cliS osEnv envLines tokenResp oracle mr bo M out
      = .exitNoCreds := by
  simp only [progressMain, hne, hkey, hcc, Bool.false_eq_true, if_false, if_true]

theorem progressMain_eq_oauth (input : List String) (cliK cliI cliS : Option String)
    (osEnv : String → Option String) (envLines : List String) (st : Nat)
    (ra : Option String) (body : List (String × JVal)) (oracle : String → Nat → HResp)
    (mr : Nat) (bo : ℚ) (M : Nat) (out : String)
    (hne : (loadIdentifiers input).isEmpty = false)
    (hkey : truthyS (resolvedApiKey cliK osEnv envLines) = false)
    (hcc : (!truthyS (resolvedClientId cliI osEnv envLines)
        || !truthyS (resolvedClientSecret cliS osEnv envLines)) = false)
    (hst : raisesForStatus st = false) :
    progressMain input cliK cliI cliS osEnv envLines (.http st ra body) oracle mr bo M out
      = .finished (.oauthMode ((resolvedClientId cliI osEnv envLines).getD (""))
            ((resolvedClientSecret cliS osEnv envLines).getD ("")))
          (progressRun input oracle mr bo M out).1
          (progressRun input oracle mr bo M out).2 := by
  simp only [progressMain, hne, hkey, hcc, hst, Bool.false_eq_true, if_false, if_true]

/-- C7 (amended): once at least one valid identifier is present and the startup
credential/authentication step succeeds, no per-identifier outcome aborts the
batch: for every response oracle the run finishes normally (exit status 0) with
the rows produced by processing the whole identifier list; an input with zero
valid identifiers instead exits with status 0 before the credential check,
without writing an output file. -/
theorem c7_no_abort_after_startup (input : List String) (cliK cliI cliS : Option String)
    (osEnv : String → Option String) (envLines : List String) (tokenResp : HResp)
    (oracle : String → Nat → HResp) (mr : Nat) (bo : ℚ) (M : Nat) (out : String)
    (hne : loadIdentifiers input ≠ [])
    (hcred : truthyS (resolvedApiKey cliK osEnv envLines) = true
      ∨ (truthyS (resolvedClientId cliI osEnv envLines) = true
        ∧ truthyS (resolvedClientSecret cliS osEnv envLines) = true
        ∧ ∃ st ra body, tokenResp = .http st ra body ∧ raisesForStatus st = false)) :
    ∃ mode cks,
      progressMain input cliK cliI cliS osEnv envLines tokenResp oracle mr bo M out
        = .finished mode (runRows (loadIdentifiers input) oracle mr bo) cks
      ∧ progExitCode (progressMain input cliK cliI cliS osEnv envLines tokenResp oracle
          mr bo M out) = 0 := by
  have hie : (loadIdentifiers input).isEmpty = false := by
    cases hca : loadIdentifiers input with
    | nil => exact absurd hca hne
    | cons a l => rfl
  by_cases hkey : truthyS (resolvedApiKey cliK osEnv envLines) = true
  · refine ⟨.apiKeyMode ((resolvedApiKey cliK osEnv envLines).getD ("")),
      (progressRun input oracle mr bo M out).2, ?_, ?_⟩
    · rw [progressMain_eq_apiKey input cliK cliI cliS osEnv envLines tokenResp oracle
        mr bo M out hie hkey, progressRun_fst]
    · rw [progressMain_eq_apiKey input cliK cliI cliS osEnv envLines tokenResp oracle
        mr bo M out hie hkey]
      rfl
  · rw [Bool.not_eq_true] at hkey
    rcases hcred with hkey2 | ⟨hid, hsec, st, ra, body, htok, hst⟩
    · exact absurd hkey2 (by simp [hkey])
    · have hcc : (!truthyS (resolvedClientId cliI osEnv envLines)
          || !truthyS (resolvedClientSecret cliS osEnv envLines)) = false := by
        simp [hid, hsec]
      subst htok
      refine ⟨.oauthMode ((resolvedClientId cliI osEnv envLines).getD (""))
          ((resolvedClientSecret cliS osEnv envLines).getD ("")),
        (progressRun input oracle mr bo M out).2, ?_, ?_⟩
      · rw [progressMain_eq_oauth input cliK cliI cliS osEnv envLines st ra body oracle
          mr bo M out hie hkey hcc hst, progressRun_fst]
      · rw [progressMain_eq_oauth input cliK cliI cliS osEnv envLines st ra body oracle
          mr bo M out hie hkey hcc hst]
        rfl

/-- Witness for C7 at a concrete input: one valid identifier, an API key, and a
network error on every attempt still finish the run with the processed rows. -/
theorem c7_no_abort_after_startup_witness :
    loadIdentifiers ["12345678901234"] ≠ []
  ∧ ∃ mode cks,
      progressMain ["12345678901234"] (some ("k")) none none (fun _ => none) []
          (.http 200 none []) (fun _ _ => .netErr ("x")) 0 1 50 ("out.xlsx")
        = .finished mode
            (runRows (loadIdentifiers ["12345678901234"]) (fun _ _ => .netErr ("x")) 0 1)
            cks := by
  have h := c7_no_abort_after_startup ["12345678901234"] (some ("k")) none none
    (fun _ => none) [] (.http 200 none []) (fun _ _ => .netErr ("x")) 0 1 50 ("out.xlsx")
    (by decide) (Or.inl (by decide))
  obtain ⟨mode, cks, h1, _⟩ := h
  exact ⟨by decide, mode, cks, h1⟩

/-- C7 counterexample: an input whose normalisation yields zero valid
identifiers makes the run exit (status 0) before the credential check, and no
final output file is written, even though credentials are present. -/
theorem c7_zero_valid_identifiers_no_output :
    progressMain ["123"] (some ("k")) none none (fun _ => none) [] (.http 200 none [])
        (fun _ _ => .http 200 none []) 2 1 50 ("out.xlsx") = .exitNoSirets
  ∧ ∀ mode rows cks,
      progressMain ["123"] (some ("k")) none none (fun _ => none) [] (.http 200 none [])
        (fun _ _ => .http 200 none []) 2 1 50 ("out.xlsx") ≠ .finished mode rows cks := by
  refine ⟨rfl, ?_⟩
  intro mode rows cks h
  rw [show progressMain ["123"] (some ("k")) none none (fun _ => none) [] (.http 200 none [])
      (fun _ _ => .http 200 none []) 2 1 50 ("out.xlsx") = ProgOutcome.exitNoSirets
    from rfl] at h
  cases h

/-- C5 (amended): each credential resolves with priority CLI value, then
environment variable, then .env-file value; a truthy resolved API key (from any
source) selects API-key mode; otherwise a truthy resolved client id and secret
pair selects OAuth2 mode; otherwise, provided the input holds at least one
valid identifier, the process exits with status 1 (non-zero) independently of
every network response; an input with zero valid identifiers instead exits with
status 0 before credential resolution. -/
theorem c5_credential_priority_and_modes :
    (∀ c e f, truthyS c = true → resolveCred c e f = c)
  ∧ (∀ c e f, truthyS c = false → truthyS e = true → resolveCred c e f = e)
  ∧ (∀ c e f, truthyS c = false → truthyS e = false → resolveCred c e f = f)
  ∧ (∀ (input : List String) (cliK cliI cliS : Option String)
      (osEnv : String → Option String) (envLines : List String) (tokenResp : HResp)
      (oracle : String → Nat → HResp) (mr : Nat) (bo : ℚ) (M : Nat) (out : String),
      loadIdentifiers input ≠ [] →
      truthyS (resolvedApiKey cliK osEnv envLines) = true →
      ∃ k rows cks, resolvedApiKey cliK osEnv envLines = some k
        ∧ progressMain input cliK cliI cliS osEnv envLines tokenResp oracle mr bo M out
            = .finished (.apiKeyMode k) rows cks)
  ∧ (∀ (input : List String) (cliK cliI cliS : Option String)
      (osEnv : String → Option String) (envLines : List String) (st : Nat)
      (ra : Option String) (body : List (String × JVal))
      (oracle : String → Nat → HResp) (mr : Nat) (bo : ℚ) (M : Nat) (out : String),
      loadIdentifiers input ≠ [] →
      truthyS (resolvedApiKey cliK osEnv envLines) = false →
      truthyS (resolvedClientId cliI osEnv envLines) = true →
      truthyS (resolvedClientSecret cliS osEnv envLines) = true →
      raisesForStatus st = false →
      ∃ ci cs rows cks, resolvedClientId cliI osEnv envLines = some ci
        ∧ resolvedClientSecret cliS osEnv envLines = some cs
        ∧ progressMain input cliK cliI cliS osEnv envLines (.http st ra body) oracle
            mr bo M out = .finished (.oauthMode ci cs) rows cks)
  ∧ (∀ (input : List String) (cliK cliI cliS : Option String)
      (osEnv : String → Option String) (envLines : List String)
      (mr : Nat) (bo : ℚ) (M : Nat) (out : String),
      loadIdentifiers input ≠ [] →
      truthyS (resolvedApiKey cliK osEnv envLines) = false →
      (truthyS (resolvedClientId cliI osEnv envLines) = false
        ∨ truthyS (resolvedClientSecret cliS osEnv envLines) = false) →
      ∀ (tokenResp : HResp) (oracle : String → Nat → HResp),
        progressMain input cliK cliI cliS osEnv envLines tokenResp oracle mr bo M out
          = .exitNoCreds
        ∧ progExitCode (progressMain input cliK cliI cliS osEnv envLines tokenResp oracle
            mr bo M out) = 1
        ∧ (1 : Nat) ≠ 0) := by
  refine ⟨?_, ?_, ?_, ?_, ?_, ?_⟩
  · intro c e f hc
    simp [resolveCred, pyOrS, hc]
  · intro c e f hc he
    simp [resolveCred, pyOrS, hc, he]
  · intro c e f hc he
    simp [resolveCred, pyOrS, hc, he]
  · intro input cliK cliI cliS osEnv envLines tokenResp oracle mr bo M out hne hkey
    have hie : (loadIdentifiers input).isEmpty = false := by
      cases hca : loadIdentifiers input with
      | nil => exact absurd hca hne
      | cons a l => rfl
    cases hk : resolvedApiKey cliK osEnv envLines with
    | none => rw [hk] at hkey; cases hkey
    | some k =>
      refine ⟨k, (progressRun input oracle mr bo M out).1,
        (progressRun input oracle mr bo M out).2, rfl, ?_⟩
      rw [progressMain_eq_apiKey input cliK cliI cliS osEnv envLines tokenResp oracle
        mr bo M out hie hkey, hk]
      rfl
  · intro input cliK cliI cliS osEnv envLines st ra body oracle mr bo M out
      hne hkey hid hsec hst
    have hie : (loadIdentifiers input).isEmpty = false := by
      cases hca : loadIdentifiers input with
      | nil => exact absurd hca hne
      | cons a l => rfl
    have hcc : (!truthyS (resolvedClientId cliI osEnv envLines)
        || !truthyS (resolvedClientSecret cliS osEnv envLines)) = false := by
      simp [hid, hsec]
    cases hi : resolvedClientId cliI osEnv envLines with
    | none => rw [hi] at hid; cases hid
    | some ci =>
      cases hs : resolvedClientSecret cliS osEnv envLines with
      | none => rw [hs] at hsec; cases hsec
      | some cs =>
        refine ⟨ci, cs, (progressRun input oracle mr bo M out).1,
          (progressRun input oracle mr bo M out).2, rfl, rfl, ?_⟩
        rw [progressMain_eq_oauth input cliK cliI cliS osEnv envLines st ra body oracle
          mr bo M out hie hkey hcc hst, hi, hs]
        rfl
  · intro input cliK cliI cliS osEnv envLines mr bo M out hne hkey hcc tokenResp oracle
    have hie : (loadIdentifiers input).isEmpty = false := by
      cases hca : loadIdentifiers input with
      | nil => exact absurd hca hne
      | cons a l => rfl
    have hcc2 : (!truthyS (resolvedClientId cliI osEnv envLines)
        || !truthyS (resolvedClientSecret cliS osEnv envLines)) = true := by
      rcases hcc with h | h <;> simp [h]
    have heq := progressMain_eq_noCreds input cliK cliI cliS osEnv envLines tokenResp
      oracle mr bo M out hie hkey hcc2
    exact ⟨heq, by rw [heq]; rfl, by decide⟩

/-- Witness for C5 at a concrete input: an API key provided only through the
.env file (no CLI flag, no environment variable) resolves and selects API-key
mode. -/
theorem c5_credential_priority_and_modes_witness :
    truthyS (resolvedApiKey none (fun _ => none) ["INSEE_API_KEY=abc"]) = true
  ∧ ∃ k rows cks, resolvedApiKey none (fun _ => none) ["INSEE_API_KEY=abc"] = some k
      ∧ progressMain ["12345678901234"] none none none (fun _ => none)
          ["INSEE_API_KEY=abc"] (.netErr ("no")) (fun _ _ => .netErr ("x")) 0 1 50
          ("out.xlsx") = .finished (.apiKeyMode k) rows cks := by
  have h := c5_credential_priority_and_modes
  have h4 := h.2.2.2.1 ["12345678901234"] none none none (fun _ => none)
    ["INSEE_API_KEY=abc"] (.netErr ("no")) (fun _ _ => .netErr ("x")) 0 1 50 ("out.xlsx")
    (by decide) (by decide)
  exact ⟨by decide, h4⟩

/-- C5 counterexample: with no credentials from any source and an input without
a valid identifier, the process exits with status 0 (before credential
resolution), where the claim requires a non-zero exit status whenever neither
authentication mode resolves. -/
theorem c5_no_creds_zero_exit_on_empty_input :
    progressMain ["123"] none none none (fun _ => none) [] (.netErr ("no"))
        (fun _ _ => .netErr ("no")) 2 1 50 ("out.xlsx") = .exitNoSirets
  ∧ progExitCode (progressMain ["123"] none none none (fun _ => none) [] (.netErr ("no"))
        (fun _ _ => .netErr ("no")) 2 1 50 ("out.xlsx")) = 0 :=
  ⟨rfl, rfl⟩

/-- C6 (amended): in the v2 variant, a token-endpoint response with a 4xx/5xx
status yields an Authentication error carrying that status and exit status 2,
distinct from the missing-credentials exit status 1 and from normal completion
0; normal completion exits 0 regardless of per-identifier failures. -/
theorem c6_auth_error_distinct_exit (input : List String) (cliK cliI cliS : Option String)
    (osEnv : String → Option String) (envLines : List String) (st : Nat)
    (ra : Option String) (body : List (String × JVal)) (oracle : String → HResp)
    (hkey : truthyS (resolvedApiKey cliK osEnv envLines) = false)
    (hid : truthyS (resolvedClientId cliI osEnv envLines) = true)
    (hsec : truthyS (resolvedClientSecret cliS osEnv envLines) = true)
    (hst : raisesForStatus st = true) :
    v2Main input cliK cliI cliS osEnv envLines (.http st ra body) oracle = .authError st
  ∧ v2ExitCode (.authError st) = 2
  ∧ (2 : Nat) ≠ 1
  ∧ (2 : Nat) ≠ 0
  ∧ (∀ (st2 : Nat) (ra2 : Option String) (body2 : List (String × JVal)),
      raisesForStatus st2 = false →
      v2ExitCode (v2Main input cliK cliI cliS osEnv envLines (.http st2 ra2 body2)
        oracle) = 0)
  ∧ (∀ (input2 : List String) (cliK2 : Option String) (osEnv2 : String → Option String)
      (envLines2 : List String) (tokenResp2 : HResp) (oracle2 : String → HResp),
      truthyS (resolvedApiKey cliK2 osEnv2 envLines2) = true →
      v2ExitCode (v2Main input2 cliK2 cliI cliS osEnv2 envLines2 tokenResp2 oracle2)
        = 0) := by
  have hcc : (!truthyS (resolvedClientId cliI osEnv envLines)
      || !truthyS (resolvedClientSecret cliS osEnv envLines)) = false := by
    simp [hid, hsec]
  refine ⟨?_, rfl, by decide, by decide, ?_, ?_⟩
  · simp only [v2Main, hkey, hcc, hst, Bool.false_eq_true, if_false, if_true]
  · intro st2 ra2 body2 hst2
    simp only [v2Main, hkey, hcc, hst2, Bool.false_eq_true, if_false, if_true]
    rfl
  · intro input2 cliK2 osEnv2 envLines2 tokenResp2 oracle2 hkey2
    simp only [v2Main, hkey2, if_true]
    rfl

/-- Witness for C6 at a concrete input: a token request rejected with HTTP 401
under resolved OAuth2 credentials gives the Authentication outcome carrying 401
and exit status 2. -/
theorem c6_auth_error_distinct_exit_witness :
    v2Main ["12345678901234"] none (some ("id")) (some ("sec")) (fun _ => none) []
        (.http 401 none []) (fun _ => .netErr ("conn")) = .authError 401
  ∧ v2ExitCode (.authError 401) = 2 := by
  have h := c6_auth_error_distinct_exit ["12345678901234"] none (some ("id"))
    (some ("sec")) (fun _ => none) [] 401 none [] (fun _ => .netErr ("conn"))
    (by decide) (by decide) (by decide) (by decide)
  exact ⟨h.1, h.2.1⟩

/-- C6 counterexample: a token-endpoint response with status 304 is not 2xx,
yet the v2 run does not produce an Authentication error — it proceeds (with a
null token) and completes normally with exit status 0, which also coincides
with the normal-completion status. -/
theorem c6_non2xx_304_no_auth_error :
    v2Main ["12345678901234"] none (some ("id")) (some ("sec")) (fun _ => none) []
        (.http 304 none []) (fun _ => .netErr ("conn"))
      = .finished (.oauthMode ("id") ("sec")) [failRow ("12345678901234") ("conn")]
  ∧ v2ExitCode (v2Main ["12345678901234"] none (some ("id")) (some ("sec"))
        (fun _ => none) [] (.http 304 none []) (fun _ => .netErr ("conn"))) = 0 :=
  ⟨rfl, rfl⟩

theorem isObjB_eq : ∀ (v : JVal), isObjB v = true → ∃ kvs, v = JVal.obj kvs
  | JVal.obj kvs, _ => ⟨kvs, rfl⟩
  | JVal.null, h => Bool.noConfusion h
  | JVal.bool _, h => Bool.noConfusion h
  | JVal.str _, h => Bool.noConfusion h
  | JVal.num _, h => Bool.noConfusion h
  | JVal.arr _, h => Bool.noConfusion h

theorem isStrB_eq : ∀ (v : JVal), isStrB v = true → ∃ s, v = JVal.str s
  | JVal.str s, _ => ⟨s, rfl⟩
  | JVal.null, h => Bool.noConfusion h
  | JVal.bool _, h => Bool.noConfusion h
  | JVal.num _, h => Bool.noConfusion h
  | JVal.arr _, h => Bool.noConfusion h
  | JVal.obj _, h => Bool.noConfusion h

theorem dictGetD_obj (kvs : List (String × JVal)) (k : String)
    (h : objIfPresent kvs k = true) :
    ∃ o, dictGetD kvs k (JVal.obj []) = JVal.obj o := by
  unfold objIfPresent at h
  unfold dictGetD
  cases hl : kvs.lookup k with
  | none => exact ⟨[], rfl⟩
  | some v =>
    rw [hl] at h
    obtain ⟨o, rfl⟩ := isObjB_eq v h
    exact ⟨o, rfl⟩

theorem pyOrD_obj (kvs : List (String × JVal)) (k : String)
    (h : objIfTruthy (dictGet kvs k) = true) :
    ∃ o, pyOr (dictGetD kvs k (JVal.obj [])) (JVal.obj []) = JVal.obj o := by
  unfold objIfTruthy at h
  unfold pyOr
  have hgd : dictGetD kvs k (JVal.obj []) = dictGet kvs k
      ∨ (kvs.lookup k = none ∧ dictGetD kvs k (JVal.obj []) = JVal.obj []) := by
    unfold dictGet dictGetD
    cases hl : kvs.lookup k with
    | none => exact Or.inr ⟨rfl, rfl⟩
    | some v => exact Or.inl rfl
  rcases hgd with heq | ⟨_, heq⟩
  · rw [heq]
    by_cases ht : truthy (dictGet kvs k) = true
    · rw [if_pos ht]
      rw [if_pos ht] at h
      exact isObjB_eq _ h
    · rw [if_neg ht]
      exact ⟨[], rfl⟩
  · rw [heq]
    exact ⟨[], ite_self _⟩

theorem periodeOf_total (kvs : List (String × JVal))
    (h : arrHeadObjIfTruthy (dictGet kvs ("periodesEtablissement")) = true) :
    ∃ per, periodeOf kvs = some per := by
  unfold arrHeadObjIfTruthy at h
  unfold periodeOf
  unfold pyOr
  by_cases ht : truthy (dictGet kvs ("periodesEtablissement")) = true
  · rw [if_pos ht]
    rw [if_pos ht] at h
    cases hv : dictGet kvs ("periodesEtablissement") with
    | arr xs =>
      cases xs with
      | nil => exact ⟨[], rfl⟩
      | cons x rest =>
        rw [hv] at h
        obtain ⟨o, rfl⟩ := isObjB_eq x h
        exact ⟨o, rfl⟩
    | null => rw [hv] at h; cases h
    | bool b => rw [hv] at h; cases h
    | str s => rw [hv] at h; cases h
    | num n => rw [hv] at h; cases h
    | obj o => rw [hv] at h; cases h
  · rw [if_neg ht]
    exact ⟨[], rfl⟩

theorem asStr_pyOr_str (kvs : List (String × JVal)) (k : String)
    (h : strIfTruthy (dictGet kvs k) = true) :
    ∃ s, asStr (pyOr (dictGet kvs k) (JVal.str (""))) = some s := by
  unfold strIfTruthy at h
  unfold pyOr
  by_cases ht : truthy (dictGet kvs k) = true
  · rw [if_pos ht]
    rw [if_pos ht] at h
    obtain ⟨s, hs⟩ := isStrB_eq _ h
    rw [hs]
    exact ⟨s, rfl⟩
  · rw [if_neg ht]
    exact ⟨"", rfl⟩

theorem pyOr_strD_isStr (kvs : List (String × JVal)) (k : String)
    (h : strIfTruthy (dictGet kvs k) = true) (x : JVal)
    (hx : x = pyOr (dictGet kvs k) (JVal.str (""))) (htr : truthy x = true) :
    isStrB x = true := by
  subst hx
  unfold strIfTruthy at h
  unfold pyOr at htr ⊢
  by_cases ht : truthy (dictGet kvs k) = true
  · rw [if_pos ht] at htr ⊢
    rw [if_pos ht] at h
    exact h
  · rw [if_neg ht]
    rfl

theorem mapStr_total : ∀ (l : List JVal), (∀ x ∈ l, isStrB x = true) →
    ∃ ys, mapStr l = some ys
  | [], _ => ⟨[], rfl⟩
  | x :: xs, h => by
    obtain ⟨s, hs⟩ := isStrB_eq x (h x (List.mem_cons_self x xs))
    obtain ⟨ys, hys⟩ := mapStr_total xs (fun y hy => h y (List.mem_cons_of_mem x hy))
    subst hs
    exact ⟨s :: ys, by simp [mapStr, asStr, hys]⟩

theorem joinTruthyParts_total (elems : List JVal)
    (h : ∀ x ∈ elems, truthy x = true → isStrB x = true) :
    ∃ s, joinTruthyParts elems = some s := by
  unfold joinTruthyParts
  obtain ⟨ys, hys⟩ := mapStr_total (elems.filter truthy) (by
    intro x hx
    have hmem := List.mem_filter.mp hx
    exact h x hmem.1 hmem.2)
  rw [hys]
  exact ⟨String.intercalate (" ") ys, rfl⟩

theorem extractFields_total (p : List (String × JVal))
    (h : wellShapedPayload p = true) : (extractFields p).isSome = true := by
  unfold wellShapedPayload at h
  split at h
  case h_2 => cases h
  case h_1 etab hE =>
    rw [Bool.and_eq_true, Bool.and_eq_true, Bool.and_eq_true, Bool.and_eq_true] at h
    obtain ⟨⟨⟨⟨h1, h2⟩, h3⟩, h4⟩, h5⟩ := h
    obtain ⟨unite, hU⟩ := dictGetD_obj etab ("uniteLegale") h1
    obtain ⟨adr, hA⟩ := pyOrD_obj etab ("adresseEtablissement") h2
    obtain ⟨per, hP⟩ := periodeOf_total etab h3
    obtain ⟨sstr, hS⟩ := asStr_pyOr_str etab ("siret") h4
    rw [hA] at h5
    rw [Bool.and_eq_true, Bool.and_eq_true] at h5
    obtain ⟨⟨h6, h7⟩, h8⟩ := h5
    obtain ⟨joined, hJ⟩ := joinTruthyParts_total
      [JVal.str (pyStr (pyOr (dictGet adr ("numeroVoieEtablissement")) (.str ("")))),
       pyOr (dictGet adr ("typeVoieEtablissement")) (.str ("")),
       pyOr (dictGet adr ("libelleVoieEtablissement")) (.str ("")),
       pyOr (dictGet adr ("complementAdresseEtablissement")) (.str (""))] (by
        intro x hx htr
        rcases List.mem_cons.mp hx with rfl | hx2
        · rfl
        rcases List.mem_cons.mp hx2 with rfl | hx3
        · exact pyOr_strD_isStr adr ("typeVoieEtablissement") h6 _ rfl htr
        rcases List.mem_cons.mp hx3 with rfl | hx4
        · exact pyOr_strD_isStr adr ("libelleVoieEtablissement") h7 _ rfl htr
        rcases List.mem_cons.mp hx4 with rfl | hx5
        · exact pyOr_strD_isStr adr ("complementAdresseEtablissement") h8 _ rfl htr
        · cases hx5)
    simp only [extractFields, hE, hU, hA, hP, hS, hJ]
    rfl

theorem pyOr_str_empty (s : String) : pyOr (JVal.str s) (JVal.str ("")) = JVal.str s := by
  unfold pyOr
  by_cases h : truthy (JVal.str s) = true
  · rw [if_pos h]
  · rw [if_neg h]
    unfold truthy at h
    simp only [bne_iff_ne, ne_eq, not_not] at h
    rw [h]

theorem mkRow_lookup_siret (a b c d e f g h i j k : JVal) :
    (mkRow a b c d e f g h i j k).lookup ("siret") = some a := rfl

theorem mkRow_lookup_siren (a b c d e f g h i j k : JVal) :
    (mkRow a b c d e f g h i j k).lookup ("siren") = some b := rfl

theorem extractFields_siret_siren (p : List (String × JVal)) (r : Row)
    (h : extractFields p = some r) :
    ∃ v sstr, r.lookup ("siret") = some v
      ∧ asStr (pyOr v (JVal.str (""))) = some sstr
      ∧ r.lookup ("siren") = some (JVal.str (sstr.take 9)) := by
  unfold extractFields at h
  repeat'
    first
      | (split at h)
      | (dsimp only [] at h)
  all_goals
    first
      | exact Option.noConfusion h
      | (cases h; exact ⟨_, _, rfl, by assumption, rfl⟩)

/-- C8 (amended): for every payload whose establishment, uniteLegale,
adresseEtablissement and periodesEtablissement entries are dictionaries when
present and whose siret and joined address components are strings when
present, extraction never fails; for the specification payload (establishment
X named ACME) it yields siret X, denomination ACME and siren equal to the
first 9 characters of X; on the empty payload every absent key yields null
except libelle_naf and siren, which default to the empty string; and whenever
the extracted siret is a string, the siren field equals its first 9
characters. -/
theorem c8_extract_field_mapping :
    (∀ p, wellShapedPayload p = true → (extractFields p).isSome = true)
  ∧ extractFields acmePayload
      = some (mkRow (.str ("X")) (.str ("X")) (.str ("ACME")) .null .null .null .null
          (.str ("")) .null .null .null)
  ∧ extractFields []
      = some (mkRow .null (.str ("")) .null .null .null .null .null (.str ("")) .null
          .null .null)
  ∧ (∀ (p : List (String × JVal)) (r : Row) (s : String), extractFields p = some r →
      r.lookup ("siret") = some (JVal.str s) →
      r.lookup ("siren") = some (JVal.str (s.take 9))) := by
  refine ⟨extractFields_total, rfl, rfl, ?_⟩
  intro p r s h hs
  obtain ⟨v, sstr, h1, h2, h3⟩ := extractFields_siret_siren p r h
  rw [h1] at hs
  have hv : v = JVal.str s := Option.some.inj hs
  subst hv
  rw [pyOr_str_empty] at h2
  have h2b : some s = some sstr := h2
  have hsstr : s = sstr := Option.some.inj h2b
  subst hsstr
  exact h3

/-- Witness for C8 at concrete inputs: the specification payload is well-shaped
and extraction succeeds on it; applying the siren-derivation clause to its
extracted row yields siren X (the first 9 characters of the siret X). -/
theorem c8_extract_field_mapping_witness :
    wellShapedPayload acmePayload = true
  ∧ (extractFields acmePayload).isSome = true
  ∧ (mkRow (.str ("X")) (.str ("X")) (.str ("ACME")) .null .null .null .null
      (.str ("")) .null .null .null : Row).lookup ("siren")
      = some (JVal.str (("X" : String).take 9)) := by
  have h := c8_extract_field_mapping
  refine ⟨by decide, h.1 acmePayload (by decide), ?_⟩
  exact h.2.2.2 acmePayload _ ("X") h.2.1 rfl

/-- C8 counterexample: on the empty payload (every key absent at every level)
the libelle_naf field is the empty string, not null; and a payload meeting the
dictionary-shape hypotheses whose siret is a number makes extraction fail
instead of yielding a record with nulls. -/
theorem c8_absent_key_empty_string_not_null :
    (extractFields []).map (fun r => r.lookup ("libelle_naf"))
      = some (some (JVal.str ("")))
  ∧ (some (some (JVal.str (""))) : Option (Option JVal)) ≠ some (some JVal.null)
  ∧ extractFields [("etablissement", JVal.obj [("siret", JVal.num 5)])] = none := by
  refine ⟨rfl, ?_, rfl⟩
  intro h
  injection h with h1
  injection h1 with h2
  exact JVal.noConfusion h2
